import Mathlib

/-!
Shallow embedding of `src/scanner.py` (class `CloudScanner`) of the
InCloudGitHub repository: the scan orchestration loop that sequences
repository/file discovery against secret detection and assembles
per-finding metadata.

External collaborators (`GitHubScanner`, the abstract parts of
`SecretDetector`, `ReportGenerator`) are modelled as an environment `Env`
of functions; Python exceptions become `Except String`; the call to
`datetime.now()` becomes a tick counter `Nat` threaded through the scan,
rendered to a string by `Env.fmtTime`.  Every call to an external
collaborator is recorded in an `ExtCall` trace so that frame properties
("this operation is never invoked on that input") are expressible.
-/

/-- One finding dictionary, as produced by `detect_secrets_in_text` and then
enriched by `_scan_repository` with `repo_url`, `repo_name`, `scan_time`
(before enrichment those three fields are absent; here they default to `""`). -/
structure Finding where
  category : String
  matched : String
  path : String
  line : Nat
  confidence : Nat
  repo_url : String := ""
  repo_name : String := ""
  scan_time : String := ""
deriving DecidableEq

/-- A repository dictionary: the fields of the dict that `scan_single_repo`
synthesizes and that `_scan_repository` reads (`full_name`, `url`). -/
structure Repo where
  full_name : String
  url : String
  clone_url : String
deriving DecidableEq

/-- A file dictionary from `get_repo_files`; the orchestrator reads `path`. -/
structure FileInfo where
  path : String
deriving DecidableEq

/-- A record of one call to an external collaborator, for frame reasoning. -/
inductive ExtCall where
  | user_repos (username : String)
  | org_repos (org : String)
  | search_ai (maxRepos : Nat)
  | repo_files (full_name : String)
  | file_content (full_name : String) (path : String)
  | detect (path : String)
  | report (scanType : String)
deriving DecidableEq

/-- The external collaborators of `CloudScanner`: the GitHub client
(`get_user_repos`, `get_org_repos`, `search_ai_repos`, `get_repo_files`,
`get_file_content`), the detector entry points whose internals the
orchestrator treats as black boxes (`should_scan_file`,
`detect_secrets_in_text`), the report generator, the configured minimum
confidence threshold, and the clock rendering. Fallible collaborator calls
return `Except String`. -/
structure Env where
  fmtTime : Nat → String
  get_user_repos : String → Except String (List Repo)
  get_org_repos : String → Except String (List Repo)
  search_ai_repos : Nat → Except String (List Repo)
  get_repo_files : String → Except String (List FileInfo)
  get_file_content : String → String → Except String (Option String)
  should_scan_file : String → Bool
  detect_secrets_in_text : String → String → Except String (List Finding)
  generate_report : List Finding → Nat → String → String
  min_confidence : Nat

/-- The enrichment performed on each detected secret inside
`_scan_repository`: `secret['repo_url'] = repo['url']`,
`secret['repo_name'] = repo['full_name']`, `secret['scan_time'] = scan_time`. -/
def enrich (repo : Repo) (scan_time : String) (s : Finding) : Finding :=
  { s with repo_url := repo.url, repo_name := repo.full_name, scan_time := scan_time }

/-- Outcome of the per-file loop of `_scan_repository`: either the loop ran to
completion with the accumulated findings, or a Python exception escaped some
iteration; the exception is caught by the `try/except` surrounding the whole
loop, and the local `findings` list accumulated so far survives into the
handler. -/
inductive LoopResult where
  | ok (findings : List Finding)
  | exn (sofar : List Finding)
deriving DecidableEq

/-- The `for file_info in files:` loop body of `_scan_repository`:
skip files rejected by `should_scan_file`, fetch content, skip falsy content
(`None` or `""`), detect, enrich, accumulate.  A raised exception (fetch or
detection failure) aborts the loop with the findings accumulated so far.
Returns the loop outcome together with the trace of collaborator calls. -/
def scanFilesLoop (env : Env) (repo : Repo) (scan_time : String) :
    List FileInfo → List Finding → LoopResult × List ExtCall
  | [], acc => (LoopResult.ok acc, [])
  | f :: rest, acc =>
    if env.should_scan_file f.path then
      match env.get_file_content repo.full_name f.path with
      | Except.error _ =>
          (LoopResult.exn acc, [ExtCall.file_content repo.full_name f.path])
      | Except.ok none =>
          let r := scanFilesLoop env repo scan_time rest acc
          (r.1, ExtCall.file_content repo.full_name f.path :: r.2)
      | Except.ok (some c) =>
          if c = "" then
            let r := scanFilesLoop env repo scan_time rest acc
            (r.1, ExtCall.file_content repo.full_name f.path :: r.2)
          else
            match env.detect_secrets_in_text c f.path with
            | Except.error _ =>
                (LoopResult.exn acc,
                  [ExtCall.file_content repo.full_name f.path, ExtCall.detect f.path])
            | Except.ok secrets =>
                let r := scanFilesLoop env repo scan_time rest
                  (acc ++ secrets.map (enrich repo scan_time))
                (r.1, ExtCall.file_content repo.full_name f.path
                  :: ExtCall.detect f.path :: r.2)
    else
      scanFilesLoop env repo scan_time rest acc

/-- The deduplication key: two findings are duplicates iff they share
(category, masked matched text, file path); line number is ignored. -/
def dedupKey (f : Finding) : String × String × String :=
  (f.category, f.matched, f.path)

/-- One insertion step of deduplication: if a finding with the same key is
already present, keep the higher-confidence one (first-seen wins ties),
in place; otherwise append the new finding at the end. -/
def updateSurvivor (f : Finding) : List Finding → List Finding
  | [] => [f]
  | g :: rest =>
      if dedupKey g = dedupKey f then
        (if g.confidence < f.confidence then f else g) :: rest
      else
        g :: updateSurvivor f rest

/-- Modelled from the spec: `SecretDetector.deduplicate_findings` lives in
`secret_detector.py`, which is not under `src/`; this follows spec §4.3 —
duplicates share (category, matched text, file path), the survivor is the
highest-confidence duplicate with ties broken by first-seen order, and the
output preserves first-seen key order. -/
def deduplicate_findings (fs : List Finding) : List Finding :=
  fs.foldl (fun acc f => updateSurvivor f acc) []

/-- Modelled from the spec: `SecretDetector.filter_high_confidence` lives in
`secret_detector.py`, which is not under `src/`; this follows spec §4.4 —
drop every finding whose confidence is strictly below the threshold. -/
def filter_high_confidence (threshold : Nat) (fs : List Finding) : List Finding :=
  fs.filter (fun f => threshold ≤ f.confidence)

/-- `CloudScanner._scan_repository`: record `scan_time` once from the clock,
list the repository's files, run the per-file loop, then deduplicate and
confidence-filter.  The surrounding `try/except` means: a file-listing
failure yields `[]`, and an exception escaping the per-file loop yields the
findings accumulated so far, with deduplication and filtering skipped.
Returns (findings, next clock tick, collaborator-call trace). -/
def scan_repository (env : Env) (repo : Repo) (t : Nat) :
    List Finding × Nat × List ExtCall :=
  let scan_time := env.fmtTime t
  match env.get_repo_files repo.full_name with
  | Except.error _ => ([], t + 1, [ExtCall.repo_files repo.full_name])
  | Except.ok files =>
      let r := scanFilesLoop env repo scan_time files []
      match r.1 with
      | LoopResult.exn sofar =>
          (sofar, t + 1, ExtCall.repo_files repo.full_name :: r.2)
      | LoopResult.ok raw =>
          (filter_high_confidence env.min_confidence (deduplicate_findings raw),
            t + 1, ExtCall.repo_files repo.full_name :: r.2)

/-- The `for idx, repo in enumerate(repos, 1):` aggregation loop shared by
`scan_user`, `scan_organization` and `scan_ai_projects`:
`all_findings.extend(self._scan_repository(repo))` in repository order. -/
def scanRepos (env : Env) : List Repo → Nat → List Finding × Nat × List ExtCall
  | [], t => ([], t, [])
  | repo :: rest, t =>
      let r1 := scan_repository env repo t
      let r2 := scanRepos env rest r1.2.1
      (r1.1 ++ r2.1, r2.2.1, r1.2.2 ++ r2.2.2)

/-- The per-repository finding lists of a multi-repository scan, in
repository order (each entry is one repository's `_scan_repository` output). -/
def perRepoLists (env : Env) : List Repo → Nat → List (List Finding)
  | [], _ => []
  | repo :: rest, t =>
      (scan_repository env repo t).1 :: perRepoLists env rest (t + 1)

/-- `CloudScanner.scan_user`: list the user's repositories (failure
propagates), scan them all, generate the report labelled `user:<name>`. -/
def scan_user (env : Env) (username : String) (t : Nat) :
    Except String String × Nat × List ExtCall :=
  let scan_start_time := t
  match env.get_user_repos username with
  | Except.error e => (Except.error e, t + 1, [ExtCall.user_repos username])
  | Except.ok repos =>
      let r := scanRepos env repos (t + 1)
      (Except.ok (env.generate_report r.1 scan_start_time ("user:" ++ username)),
        r.2.1,
        ExtCall.user_repos username :: r.2.2 ++ [ExtCall.report ("user:" ++ username)])

/-- `CloudScanner.scan_organization`: like `scan_user` with `get_org_repos`
and the label `org:<name>`. -/
def scan_organization (env : Env) (org_name : String) (t : Nat) :
    Except String String × Nat × List ExtCall :=
  let scan_start_time := t
  match env.get_org_repos org_name with
  | Except.error e => (Except.error e, t + 1, [ExtCall.org_repos org_name])
  | Except.ok repos =>
      let r := scanRepos env repos (t + 1)
      (Except.ok (env.generate_report r.1 scan_start_time ("org:" ++ org_name)),
        r.2.1,
        ExtCall.org_repos org_name :: r.2.2 ++ [ExtCall.report ("org:" ++ org_name)])

/-- `CloudScanner.scan_ai_projects`: like `scan_user` with
`search_ai_repos max_repos` and the fixed label `auto:ai-projects`. -/
def scan_ai_projects (env : Env) (max_repos : Nat) (t : Nat) :
    Except String String × Nat × List ExtCall :=
  let scan_start_time := t
  match env.search_ai_repos max_repos with
  | Except.error e => (Except.error e, t + 1, [ExtCall.search_ai max_repos])
  | Except.ok repos =>
      let r := scanRepos env repos (t + 1)
      (Except.ok (env.generate_report r.1 scan_start_time "auto:ai-projects"),
        r.2.1,
        ExtCall.search_ai max_repos :: r.2.2 ++ [ExtCall.report "auto:ai-projects"])

/-- The repository dictionary that `scan_single_repo` builds locally from the
user-given `owner/repo` string. -/
def mkSingleRepo (repo_full_name : String) : Repo :=
  { full_name := repo_full_name
    url := "https://github.com/" ++ repo_full_name
    clone_url := "https://github.com/" ++ repo_full_name ++ ".git" }

/-- `CloudScanner.scan_single_repo`: synthesize the repository reference
locally, scan it, generate the report labelled `single:<owner/repo>`.
Never fails (the repository scan absorbs its own exceptions). -/
def scan_single_repo (env : Env) (repo_full_name : String) (t : Nat) :
    String × Nat × List ExtCall :=
  let scan_start_time := t
  let repo_info := mkSingleRepo repo_full_name
  let r := scan_repository env repo_info (t + 1)
  (env.generate_report r.1 scan_start_time ("single:" ++ repo_full_name),
    r.2.1,
    r.2.2 ++ [ExtCall.report ("single:" ++ repo_full_name)])

/-- Is this collaborator call a repository-listing operation? -/
def isListingCall : ExtCall → Bool
  | ExtCall.user_repos _ => true
  | ExtCall.org_repos _ => true
  | ExtCall.search_ai _ => true
  | _ => false

/-- The findings carried by a loop outcome, whether or not an exception
aborted the loop. -/
def LoopResult.findings : LoopResult → List Finding
  | LoopResult.ok fs => fs
  | LoopResult.exn fs => fs

/-! ### Helper lemmas about the per-file loop -/

lemma scanFilesLoop_mem_enrich (env : Env) (repo : Repo) (st : String) :
    ∀ files acc f, f ∈ ((scanFilesLoop env repo st files acc).1).findings →
      f ∈ acc ∨
        (f.repo_url = repo.url ∧ f.repo_name = repo.full_name ∧ f.scan_time = st) := by
  intro files
  induction files with
  | nil =>
      intro acc f hf
      simp [scanFilesLoop, LoopResult.findings] at hf
      exact Or.inl hf
  | cons g rest ih =>
      intro acc f hf
      simp only [scanFilesLoop] at hf
      by_cases hs : env.should_scan_file g.path
      · simp only [hs, if_true] at hf
        rcases hc : env.get_file_content repo.full_name g.path with e | oc
        · simp only [hc] at hf
          simp [LoopResult.findings] at hf
          exact Or.inl hf
        · rcases oc with _ | c
          · simp only [hc] at hf
            exact ih acc f hf
          · simp only [hc] at hf
            by_cases hcempty : c = ""
            · simp only [hcempty, if_pos rfl] at hf
              exact ih acc f hf
            · simp only [if_neg hcempty] at hf
              rcases hd : env.detect_secrets_in_text c g.path with e | secrets
              · simp only [hd] at hf
                simp [LoopResult.findings] at hf
                exact Or.inl hf
              · simp only [hd] at hf
                rcases ih _ f hf with hmem | hP
                · rcases List.mem_append.mp hmem with h1 | h2
                  · exact Or.inl h1
                  · rcases List.mem_map.mp h2 with ⟨s, _, hs⟩
                    subst hs
                    exact Or.inr ⟨rfl, rfl, rfl⟩
                · exact Or.inr hP
      · simp only [hs, if_false] at hf
        exact ih acc f hf

/-! ### Helper lemmas about deduplication and filtering -/

lemma mem_updateSurvivor {f g : Finding} :
    ∀ {l : List Finding}, f ∈ updateSurvivor g l → f = g ∨ f ∈ l := by
  intro l
  induction l with
  | nil =>
      intro hf
      simp [updateSurvivor] at hf
      exact Or.inl hf
  | cons x rest ih =>
      intro hf
      simp only [updateSurvivor] at hf
      by_cases hk : dedupKey x = dedupKey g
      · simp only [hk, if_true] at hf
        rcases List.mem_cons.mp hf with h1 | h2
        · by_cases hc : x.confidence < g.confidence
          · simp [hc] at h1; exact Or.inl h1
          · simp [hc] at h1; exact Or.inr (h1 ▸ List.mem_cons_self x rest)
        · exact Or.inr (List.mem_cons_of_mem x h2)
      · simp only [hk, if_false] at hf
        rcases List.mem_cons.mp hf with h1 | h2
        · exact Or.inr (h1 ▸ List.mem_cons_self x rest)
        · rcases ih h2 with h3 | h4
          · exact Or.inl h3
          · exact Or.inr (List.mem_cons_of_mem x h4)

lemma mem_deduplicate_aux :
    ∀ (l acc : List Finding) (f : Finding),
      f ∈ l.foldl (fun a x => updateSurvivor x a) acc → f ∈ acc ∨ f ∈ l := by
  intro l
  induction l with
  | nil => intro acc f hf; exact Or.inl hf
  | cons x rest ih =>
      intro acc f hf
      rcases ih (updateSurvivor x acc) f hf with h1 | h2
      · rcases mem_updateSurvivor h1 with h3 | h4
        · exact Or.inr (h3 ▸ List.mem_cons_self x rest)
        · exact Or.inl h4
      · exact Or.inr (List.mem_cons_of_mem x h2)

lemma mem_deduplicate {l : List Finding} {f : Finding}
    (hf : f ∈ deduplicate_findings l) : f ∈ l := by
  rcases mem_deduplicate_aux l [] f hf with h | h
  · simp at h
  · exact h

lemma mem_filter_high_confidence {th : Nat} {l : List Finding} {f : Finding} :
    f ∈ filter_high_confidence th l ↔ f ∈ l ∧ th ≤ f.confidence := by
  simp [filter_high_confidence, List.mem_filter]

lemma map_dedupKey_updateSurvivor (f : Finding) :
    ∀ l : List Finding,
      (updateSurvivor f l).map dedupKey =
        if dedupKey f ∈ l.map dedupKey then l.map dedupKey
        else l.map dedupKey ++ [dedupKey f] := by
  intro l
  induction l with
  | nil => simp [updateSurvivor]
  | cons g rest ih =>
      rw [List.map_cons]
      by_cases hk : dedupKey g = dedupKey f
      · have hmem : dedupKey f ∈ dedupKey g :: rest.map dedupKey := by
          rw [hk]; exact List.mem_cons_self _ _
        rw [if_pos hmem]
        simp only [updateSurvivor, if_pos hk]
        by_cases hc : g.confidence < f.confidence
        · rw [if_pos hc]; simp [List.map_cons, hk]
        · rw [if_neg hc]; simp [List.map_cons]
      · simp only [updateSurvivor, if_neg hk, List.map_cons, ih]
        by_cases hmem : dedupKey f ∈ rest.map dedupKey
        · rw [if_pos hmem, if_pos (List.mem_cons_of_mem _ hmem)]
        · have hnot : dedupKey f ∉ dedupKey g :: rest.map dedupKey := by
            intro h
            rcases List.mem_cons.mp h with h1 | h2
            · exact hk h1.symm
            · exact hmem h2
          rw [if_neg hmem, if_neg hnot, List.cons_append]

lemma nodup_keys_updateSurvivor {f : Finding} {l : List Finding}
    (h : (l.map dedupKey).Nodup) : ((updateSurvivor f l).map dedupKey).Nodup := by
  rw [map_dedupKey_updateSurvivor]
  by_cases hmem : dedupKey f ∈ l.map dedupKey
  · simpa [hmem]
  · simpa [hmem] using List.Nodup.append h (List.nodup_singleton _)
      (by simpa [List.disjoint_singleton] using hmem)

lemma nodup_keys_foldl :
    ∀ (l acc : List Finding), (acc.map dedupKey).Nodup →
      ((l.foldl (fun a x => updateSurvivor x a) acc).map dedupKey).Nodup := by
  intro l
  induction l with
  | nil => intro acc h; exact h
  | cons x rest ih =>
      intro acc h
      exact ih (updateSurvivor x acc) (nodup_keys_updateSurvivor h)

lemma nodup_keys_deduplicate (l : List Finding) :
    ((deduplicate_findings l).map dedupKey).Nodup :=
  nodup_keys_foldl l [] (by simp)

lemma nodup_keys_filter {th : Nat} {l : List Finding}
    (h : (l.map dedupKey).Nodup) :
    ((filter_high_confidence th l).map dedupKey).Nodup :=
  List.Nodup.sublist (List.Sublist.map dedupKey (List.filter_sublist l)) h

/-! ### Helper lemmas about the collaborator-call trace and the tick counter -/

lemma scanFilesLoop_trace (env : Env) (repo : Repo) (st : String) :
    ∀ files acc c, c ∈ (scanFilesLoop env repo st files acc).2 →
      ∃ p, env.should_scan_file p = true ∧
        (c = ExtCall.file_content repo.full_name p ∨
          (c = ExtCall.detect p ∧
            ∃ s, env.get_file_content repo.full_name p = Except.ok (some s) ∧ s ≠ "")) := by
  intro files
  induction files with
  | nil =>
      intro acc c hc
      simp [scanFilesLoop] at hc
  | cons g rest ih =>
      intro acc c hc
      simp only [scanFilesLoop] at hc
      by_cases hs : env.should_scan_file g.path
      · simp only [hs, if_true] at hc
        rcases hfc : env.get_file_content repo.full_name g.path with e | oc
        · simp only [hfc] at hc
          simp at hc
          exact ⟨g.path, hs, Or.inl hc⟩
        · rcases oc with _ | s
          · simp only [hfc] at hc
            rcases List.mem_cons.mp hc with h1 | h2
            · exact ⟨g.path, hs, Or.inl h1⟩
            · exact ih _ c h2
          · simp only [hfc] at hc
            by_cases hse : s = ""
            · simp only [hse, if_pos rfl] at hc
              rcases List.mem_cons.mp hc with h1 | h2
              · exact ⟨g.path, hs, Or.inl h1⟩
              · exact ih _ c h2
            · simp only [if_neg hse] at hc
              rcases hd : env.detect_secrets_in_text s g.path with e | secrets
              · simp only [hd] at hc
                simp at hc
                rcases hc with h1 | h2
                · exact ⟨g.path, hs, Or.inl h1⟩
                · exact ⟨g.path, hs, Or.inr ⟨h2, s, hfc, hse⟩⟩
              · simp only [hd] at hc
                rcases List.mem_cons.mp hc with h1 | h2
                · exact ⟨g.path, hs, Or.inl h1⟩
                · rcases List.mem_cons.mp h2 with h3 | h4
                  · exact ⟨g.path, hs, Or.inr ⟨h3, s, hfc, hse⟩⟩
                  · exact ih _ c h4
      · simp only [hs, if_false] at hc
        exact ih _ c hc

lemma scan_repository_tick (env : Env) (repo : Repo) (t : Nat) :
    (scan_repository env repo t).2.1 = t + 1 := by
  unfold scan_repository
  rcases h : env.get_repo_files repo.full_name with e | files
  · rfl
  · simp only []
    rcases hr : (scanFilesLoop env repo (env.fmtTime t) files []).1 with raw | sofar
    · simp [hr]
    · simp [hr]

lemma scan_repository_trace (env : Env) (repo : Repo) (t : Nat) :
    ∀ c ∈ (scan_repository env repo t).2.2,
      c = ExtCall.repo_files repo.full_name ∨
        ∃ p, env.should_scan_file p = true ∧
          (c = ExtCall.file_content repo.full_name p ∨
            (c = ExtCall.detect p ∧
              ∃ s, env.get_file_content repo.full_name p = Except.ok (some s) ∧ s ≠ "")) := by
  intro c hc
  unfold scan_repository at hc
  rcases h : env.get_repo_files repo.full_name with e | files
  · rw [h] at hc
    simp at hc
    exact Or.inl hc
  · rw [h] at hc
    rcases hr : (scanFilesLoop env repo (env.fmtTime t) files []).1 with raw | sofar
    all_goals
      simp only [hr] at hc
      rcases List.mem_cons.mp hc with h1 | h2
      · exact Or.inl h1
      · exact Or.inr (scanFilesLoop_trace env repo (env.fmtTime t) files [] c h2)

lemma scanRepos_join (env : Env) :
    ∀ (repos : List Repo) (t : Nat),
      (scanRepos env repos t).1 = (perRepoLists env repos t).flatten := by
  intro repos
  induction repos with
  | nil => intro t; simp [scanRepos, perRepoLists]
  | cons repo rest ih =>
      intro t
      simp only [scanRepos, perRepoLists, List.flatten_cons]
      rw [scan_repository_tick, ih]

/-! ### A concrete environment used to witness the theorems below -/

/-- A raw finding as `detect_secrets_in_text` would emit it for
`alice/app : config.py`. -/
def wF1 : Finding :=
  { category := "AWS Access Key", matched := "AKIA****CDEF", path := "config.py",
    line := 1, confidence := 90 }

/-- A duplicate of `wF1` (same key, other line, lower confidence). -/
def wF1dup : Finding :=
  { category := "AWS Access Key", matched := "AKIA****CDEF", path := "config.py",
    line := 7, confidence := 40 }

/-- A raw finding for `alice/lib : main.py`. -/
def wF2 : Finding :=
  { category := "Generic Token", matched := "tok_****",
    path := "main.py", line := 2, confidence := 85 }

/-- First repository of the witness scenario. -/
def wRepoA : Repo :=
  { full_name := "alice/app", url := "https://github.com/alice/app",
    clone_url := "https://github.com/alice/app.git" }

/-- Second repository of the witness scenario: its file listing fails. -/
def wRepoErr : Repo :=
  { full_name := "alice/broken", url := "https://github.com/alice/broken",
    clone_url := "https://github.com/alice/broken.git" }

/-- Third repository of the witness scenario. -/
def wRepoB : Repo :=
  { full_name := "alice/lib", url := "https://github.com/alice/lib",
    clone_url := "https://github.com/alice/lib.git" }

/-- A concrete environment: user `alice` has three repositories, the middle
one's file listing fails; `alice/app` has a scannable file with two duplicate
findings, a file with absent content, a file with empty content, and a file
rejected by the filter; unknown users/organizations fail to resolve. -/
def wEnv : Env :=
  { fmtTime := fun t => "T" ++ toString t
    get_user_repos := fun u =>
      if u = "alice" then Except.ok [wRepoA, wRepoErr, wRepoB]
      else Except.error "user not found"
    get_org_repos := fun o =>
      if o = "acme" then Except.ok [wRepoA] else Except.error "org not found"
    search_ai_repos := fun _ => Except.ok [wRepoB]
    get_repo_files := fun n =>
      if n = "alice/app" then
        Except.ok [⟨"config.py"⟩, ⟨"README.md"⟩, ⟨"empty.txt"⟩, ⟨"img.png"⟩]
      else if n = "alice/lib" then Except.ok [⟨"main.py"⟩]
      else Except.error "rate limited"
    get_file_content := fun n p =>
      if n = "alice/app" then
        (if p = "config.py" then Except.ok (some "API_KEY = AKIA...")
         else if p = "README.md" then Except.ok none
         else if p = "empty.txt" then Except.ok (some "")
         else Except.error "unexpected fetch")
      else if n = "alice/lib" then
        (if p = "main.py" then Except.ok (some "token = tok_...")
         else Except.error "unexpected fetch")
      else Except.error "not found"
    should_scan_file := fun p => ¬ (p = "img.png")
    detect_secrets_in_text := fun c _ =>
      if c = "API_KEY = AKIA..." then Except.ok [wF1, wF1dup]
      else if c = "token = tok_..." then Except.ok [wF2]
      else Except.ok []
    generate_report := fun fs st ty => ty ++ "#" ++ toString fs.length ++ "@" ++ toString st
    min_confidence := 70 }

/-! ### Claim theorems -/

/-- Claim C4: in every repository scan that completes without an exception,
the returned finding list is exactly
`filter_high_confidence (deduplicate_findings raw)` where `raw` is the list
accumulated by the per-file loop: confidence filtering is applied to the
output of deduplication, never to the raw list. -/
theorem C4_filter_after_dedup (env : Env) (repo : Repo) (t : Nat)
    (files : List FileInfo) (raw : List Finding)
    (hfiles : env.get_repo_files repo.full_name = Except.ok files)
    (hloop : (scanFilesLoop env repo (env.fmtTime t) files []).1 = LoopResult.ok raw) :
    (scan_repository env repo t).1 =
      filter_high_confidence env.min_confidence (deduplicate_findings raw) := by
  unfold scan_repository
  rw [hfiles]
  simp only [hloop]

/-- Witness for C4 on the concrete environment: repository `alice/app`
completes without exception with raw duplicate findings and the result is
the filtered deduplication. -/
theorem C4_filter_after_dedup_witness :
    (scan_repository wEnv wRepoA 5).1 =
      filter_high_confidence wEnv.min_confidence
        (deduplicate_findings [enrich wRepoA "T5" wF1, enrich wRepoA "T5" wF1dup]) :=
  C4_filter_after_dedup wEnv wRepoA 5
    [⟨"config.py"⟩, ⟨"README.md"⟩, ⟨"empty.txt"⟩, ⟨"img.png"⟩]
    [enrich wRepoA "T5" wF1, enrich wRepoA "T5" wF1dup] rfl (by decide)

/-- Claim C6: if the initial repository-listing call of `scan_user` or
`scan_organization` fails, the exception propagates to the caller: the result
is that error, and no report is generated (the collaborator-call trace holds
only the failed listing call, in particular no `report` call). -/
theorem C6_listing_failure_propagates (env : Env) (username org_name : String)
    (t : Nat) (e e2 : String)
    (hu : env.get_user_repos username = Except.error e)
    (ho : env.get_org_repos org_name = Except.error e2) :
    (scan_user env username t).1 = Except.error e ∧
    (scan_user env username t).2.2 = [ExtCall.user_repos username] ∧
    (scan_organization env org_name t).1 = Except.error e2 ∧
    (scan_organization env org_name t).2.2 = [ExtCall.org_repos org_name] := by
  unfold scan_user scan_organization
  rw [hu, ho]
  exact ⟨rfl, rfl, rfl, rfl⟩

/-- Witness for C6 on the concrete environment: unknown user and organization. -/
theorem C6_listing_failure_propagates_witness :
    (scan_user wEnv "nobody" 0).1 = Except.error "user not found" ∧
    (scan_user wEnv "nobody" 0).2.2 = [ExtCall.user_repos "nobody"] ∧
    (scan_organization wEnv "noorg" 0).1 = Except.error "org not found" ∧
    (scan_organization wEnv "noorg" 0).2.2 = [ExtCall.org_repos "noorg"] :=
  C6_listing_failure_propagates wEnv "nobody" "noorg" 0
    "user not found" "org not found" rfl rfl

/-! ### Counterexample scenario for C1: an exception mid-loop leaves findings -/

/-- Raw finding detected in file `a` of the C1 counterexample. -/
def cx1F : Finding :=
  { category := "K", matched := "m", path := "a", line := 1, confidence := 90 }

/-- `cx1F` after enrichment (`scan_time` is tick 1 of the clock). -/
def cx1Fe : Finding :=
  { category := "K", matched := "m", path := "a", line := 1, confidence := 90,
    repo_url := "U", repo_name := "u/r", scan_time := "T1" }

/-- The single repository of the C1 counterexample. -/
def cx1Repo : Repo := { full_name := "u/r", url := "U", clone_url := "C" }

/-- Environment where file `a` of `u/r` yields a finding and then file `b`'s
content fetch raises. -/
def cx1Env : Env :=
  { fmtTime := fun t => "T" ++ toString t
    get_user_repos := fun _ => Except.ok [cx1Repo]
    get_org_repos := fun _ => Except.error "na"
    search_ai_repos := fun _ => Except.error "na"
    get_repo_files := fun _ => Except.ok [⟨"a"⟩, ⟨"b"⟩]
    get_file_content := fun _ p =>
      if p = "a" then Except.ok (some "ka") else Except.error "boom"
    should_scan_file := fun _ => true
    detect_secrets_in_text := fun _ _ => Except.ok [cx1F]
    generate_report := fun fs _ ty => ty ++ "#" ++ toString fs.length
    min_confidence := 70 }

/-- Counterexample to claim C1 as stated: in `cx1Env`, processing repository
`u/r` raises an exception (file `b`'s fetch fails, the loop ends in `exn`),
yet the repository contributes a nonempty finding list, which reaches the
report of `scan_user`. -/
theorem C1_zero_findings_counterexample :
    (scanFilesLoop cx1Env cx1Repo (cx1Env.fmtTime 1) [⟨"a"⟩, ⟨"b"⟩] []).1 =
      LoopResult.exn [cx1Fe] ∧
    (scan_repository cx1Env cx1Repo 1).1 = [cx1Fe] ∧
    ([cx1Fe] ≠ ([] : List Finding)) ∧
    (scan_user cx1Env "u" 0).1 = Except.ok "user:u#1" :=
  ⟨rfl, rfl, by decide, rfl⟩

/-- Claim C1 (amended): if a repository's *file-listing* call fails, that
repository contributes zero findings; remaining repositories are still
processed and the multi-repository scan returns a report normally — for a
target with 3 repositories where repository 2's file listing throws, the
report is generated over exactly the findings of repositories 1 and 3.
(When the exception arises mid-way through the file loop instead, the
repository contributes the findings accumulated before it — see the
counterexample.) -/
theorem C1_repo_failure_isolation (env : Env) (u : String) (t : Nat)
    (r1 r2 r3 : Repo) (e : String)
    (hu : env.get_user_repos u = Except.ok [r1, r2, r3])
    (h2 : env.get_repo_files r2.full_name = Except.error e) :
    (∀ t', (scan_repository env r2 t').1 = []) ∧
    (scan_user env u t).1 =
      Except.ok (env.generate_report
        ((scan_repository env r1 (t + 1)).1 ++ (scan_repository env r3 (t + 3)).1)
        t ("user:" ++ u)) := by
  have hz : ∀ t', (scan_repository env r2 t').1 = [] := by
    intro t'
    unfold scan_repository
    rw [h2]
  refine ⟨hz, ?_⟩
  unfold scan_user
  rw [hu]
  simp only [scanRepos, scan_repository_tick, hz, List.nil_append, List.append_nil]

/-- Witness for the amended C1 on the concrete environment: `alice` has three
repositories, the middle one's file listing is rate limited. -/
theorem C1_repo_failure_isolation_witness :
    (scan_repository wEnv wRepoErr 2).1 = [] ∧
    (scan_user wEnv "alice" 0).1 =
      Except.ok (wEnv.generate_report
        ((scan_repository wEnv wRepoA 1).1 ++ (scan_repository wEnv wRepoB 3).1)
        0 ("user:" ++ "alice")) := by
  have h := C1_repo_failure_isolation wEnv "alice" 0 wRepoA wRepoErr wRepoB
    "rate limited" rfl rfl
  exact ⟨h.1 2, h.2⟩

/-! ### Counterexample scenario for C2: the per-file loop does not continue -/

/-- Raw finding detected in file `a` of the C2 counterexample. -/
def cx2A : Finding :=
  { category := "K", matched := "ma", path := "a", line := 1, confidence := 90 }

/-- Raw finding that file `c` of the C2 counterexample *would* yield. -/
def cx2B : Finding :=
  { category := "K", matched := "mc", path := "c", line := 1, confidence := 90 }

/-- `cx2A` after enrichment (`scan_time` is tick 0 of the clock). -/
def cx2Ae : Finding :=
  { category := "K", matched := "ma", path := "a", line := 1, confidence := 90,
    repo_url := "U", repo_name := "u/r", scan_time := "T0" }

/-- `cx2B` after enrichment. -/
def cx2Be : Finding :=
  { category := "K", matched := "mc", path := "c", line := 1, confidence := 90,
    repo_url := "U", repo_name := "u/r", scan_time := "T0" }

/-- The repository of the C2 counterexample. -/
def cx2Repo : Repo := { full_name := "u/r", url := "U", clone_url := "C" }

/-- Environment where, in repository `u/r`, file `a` yields a finding, file
`b`'s content fetch raises, and file `c` would yield a further finding. -/
def cx2Env : Env :=
  { fmtTime := fun t => "T" ++ toString t
    get_user_repos := fun _ => Except.ok [cx2Repo]
    get_org_repos := fun _ => Except.error "na"
    search_ai_repos := fun _ => Except.error "na"
    get_repo_files := fun _ => Except.ok [⟨"a"⟩, ⟨"b"⟩, ⟨"c"⟩]
    get_file_content := fun _ p =>
      if p = "a" then Except.ok (some "ka")
      else if p = "c" then Except.ok (some "kc")
      else Except.error "boom"
    should_scan_file := fun _ => true
    detect_secrets_in_text := fun c _ =>
      if c = "ka" then Except.ok [cx2A]
      else if c = "kc" then Except.ok [cx2B]
      else Except.ok []
    generate_report := fun fs _ ty => ty ++ "#" ++ toString fs.length
    min_confidence := 70 }

/-- Counterexample to claim C2 as stated: in `cx2Env`, file `b`'s fetch error
does *not* leave the remaining files scanned — file `c` would have yielded
`cx2Be` (its content fetch succeeds non-empty and detection succeeds), yet the
repository result omits it and file `c` is never even fetched. -/
theorem C2_loop_continues_counterexample :
    (scan_repository cx2Env cx2Repo 0).1 = [cx2Ae] ∧
    cx2Be ∉ (scan_repository cx2Env cx2Repo 0).1 ∧
    cx2Env.get_file_content "u/r" "c" = Except.ok (some "kc") ∧
    cx2Env.detect_secrets_in_text "kc" "c" = Except.ok [cx2B] ∧
    ExtCall.file_content "u/r" "c" ∉ (scan_repository cx2Env cx2Repo 0).2.2 :=
  ⟨rfl, by decide, rfl, rfl, by decide⟩

/-- Claim C2 (amended): a fetch or detection error on file `k` is caught at
the *repository* level, not per-file: the per-file loop aborts at file `k`
(files after `k` are not scanned), and the repository returns exactly the
findings accumulated from the files before `k`, with deduplication and
confidence filtering skipped. -/
theorem C2_per_file_error_aborts_loop (env : Env) (repo : Repo) (t : Nat)
    (st : String) (f : FileInfo) (rest files : List FileInfo)
    (acc sofar : List Finding) (e : String)
    (hs : env.should_scan_file f.path = true)
    (herr : env.get_file_content repo.full_name f.path = Except.error e ∨
      (∃ c, env.get_file_content repo.full_name f.path = Except.ok (some c) ∧
        ¬ c = "" ∧ env.detect_secrets_in_text c f.path = Except.error e))
    (hfiles : env.get_repo_files repo.full_name = Except.ok files)
    (hloop : (scanFilesLoop env repo (env.fmtTime t) files []).1 = LoopResult.exn sofar) :
    (scanFilesLoop env repo st (f :: rest) acc).1 = LoopResult.exn acc ∧
    (scan_repository env repo t).1 = sofar := by
  constructor
  · rcases herr with herr | ⟨c, hfc, hcne, hdet⟩
    · simp only [scanFilesLoop, hs, if_true, herr]
    · simp only [scanFilesLoop, hs, if_true, hfc, if_neg hcne, hdet]
  · unfold scan_repository
    rw [hfiles]
    simp only [hloop]

/-- Witness for the amended C2 on the C2 scenario: file `b`'s fetch error
aborts the loop with the single finding from file `a`, and the repository
returns it. -/
theorem C2_per_file_error_aborts_loop_witness :
    (scanFilesLoop cx2Env cx2Repo "T0" [⟨"b"⟩, ⟨"c"⟩] [cx2Ae]).1 =
      LoopResult.exn [cx2Ae] ∧
    (scan_repository cx2Env cx2Repo 0).1 = [cx2Ae] :=
  C2_per_file_error_aborts_loop cx2Env cx2Repo 0 "T0" ⟨"b"⟩ [⟨"c"⟩]
    [⟨"a"⟩, ⟨"b"⟩, ⟨"c"⟩] [cx2Ae] [cx2Ae] "boom" rfl (Or.inl rfl) rfl (by decide)

/-! ### Counterexample scenario for C3: the invariant fails on exceptional runs -/

/-- First low-confidence raw finding of the C3 counterexample. -/
def cx3F1 : Finding :=
  { category := "K", matched := "m", path := "a", line := 1, confidence := 10 }

/-- Duplicate of `cx3F1` (same key, other line). -/
def cx3F2 : Finding :=
  { category := "K", matched := "m", path := "a", line := 5, confidence := 20 }

/-- `cx3F1` after enrichment. -/
def cx3F1e : Finding :=
  { category := "K", matched := "m", path := "a", line := 1, confidence := 10,
    repo_url := "U", repo_name := "u/r", scan_time := "T0" }

/-- `cx3F2` after enrichment. -/
def cx3F2e : Finding :=
  { category := "K", matched := "m", path := "a", line := 5, confidence := 20,
    repo_url := "U", repo_name := "u/r", scan_time := "T0" }

/-- The repository of the C3 counterexample. -/
def cx3Repo : Repo := { full_name := "u/r", url := "U", clone_url := "C" }

/-- Environment where file `a` yields two duplicate findings below the
confidence threshold and then file `b`'s fetch raises, so the repository
returns the raw list with deduplication and filtering skipped. -/
def cx3Env : Env :=
  { fmtTime := fun t => "T" ++ toString t
    get_user_repos := fun _ => Except.ok [cx3Repo]
    get_org_repos := fun _ => Except.error "na"
    search_ai_repos := fun _ => Except.error "na"
    get_repo_files := fun _ => Except.ok [⟨"a"⟩, ⟨"b"⟩]
    get_file_content := fun _ p =>
      if p = "a" then Except.ok (some "ka") else Except.error "boom"
    should_scan_file := fun _ => true
    detect_secrets_in_text := fun _ _ => Except.ok [cx3F1, cx3F2]
    generate_report := fun fs _ ty => ty ++ "#" ++ toString fs.length
    min_confidence := 70 }

/-- Counterexample to claim C3 as stated: in `cx3Env`, the run of
`_scan_repository` in which file `b`'s fetch raises returns two findings
sharing the same (category, matched text, file path) key, each with
confidence strictly below the configured minimum. -/
theorem C3_invariant_counterexample :
    (scan_repository cx3Env cx3Repo 0).1 = [cx3F1e, cx3F2e] ∧
    dedupKey cx3F1e = dedupKey cx3F2e ∧
    cx3F1e ≠ cx3F2e ∧
    cx3F1e.confidence < cx3Env.min_confidence ∧
    cx3F2e.confidence < cx3Env.min_confidence :=
  ⟨rfl, rfl, by decide, by decide, by decide⟩

/-- Claim C3 (amended): for every run of `_scan_repository` in which *no
exception interrupts the per-file loop*, the returned list satisfies the
invariant: every finding has confidence at least the configured minimum
threshold, and no two findings share the same
(category, matched text, file path) key.  On exceptional runs the raw
accumulated findings are returned and the invariant can fail — see the
counterexample. -/
theorem C3_result_invariant_no_exception (env : Env) (repo : Repo) (t : Nat)
    (files : List FileInfo) (raw : List Finding)
    (hfiles : env.get_repo_files repo.full_name = Except.ok files)
    (hloop : (scanFilesLoop env repo (env.fmtTime t) files []).1 = LoopResult.ok raw) :
    (∀ f ∈ (scan_repository env repo t).1, env.min_confidence ≤ f.confidence) ∧
    (((scan_repository env repo t).1.map dedupKey).Nodup) := by
  have heq : (scan_repository env repo t).1 =
      filter_high_confidence env.min_confidence (deduplicate_findings raw) := by
    unfold scan_repository
    rw [hfiles]
    simp only [hloop]
  constructor
  · intro f hf
    rw [heq] at hf
    exact (mem_filter_high_confidence.mp hf).2
  · rw [heq]
    exact nodup_keys_filter (nodup_keys_deduplicate raw)

/-- Witness for the amended C3 on the concrete environment: `alice/app`
scans without exception; the surviving finding meets the threshold and the
key list of the result has no duplicates. -/
theorem C3_result_invariant_witness :
    wEnv.min_confidence ≤ (enrich wRepoA "T5" wF1).confidence ∧
    (((scan_repository wEnv wRepoA 5).1.map dedupKey).Nodup) := by
  have h := C3_result_invariant_no_exception wEnv wRepoA 5
    [⟨"config.py"⟩, ⟨"README.md"⟩, ⟨"empty.txt"⟩, ⟨"img.png"⟩]
    [enrich wRepoA "T5" wF1, enrich wRepoA "T5" wF1dup] rfl (by decide)
  exact ⟨h.1 (enrich wRepoA "T5" wF1) (by decide), h.2⟩

/-- Claim C5: for every multi-repository scan (`scan_user`,
`scan_organization`, `scan_ai_projects`), the finding list handed to the
report generator is the concatenation, in repository order, of each
repository's own `_scan_repository` output (deduplication and filtering
happen only inside `_scan_repository`; nothing is deduplicated across
repositories after concatenation). -/
theorem C5_aggregation_concat (env : Env) (t : Nat) (u o : String) (m : Nat)
    (repos1 repos2 repos3 : List Repo)
    (hu : env.get_user_repos u = Except.ok repos1)
    (ho : env.get_org_repos o = Except.ok repos2)
    (ha : env.search_ai_repos m = Except.ok repos3) :
    (∀ (repos : List Repo) (tk : Nat),
      (scanRepos env repos tk).1 = (perRepoLists env repos tk).flatten) ∧
    (scan_user env u t).1 =
      Except.ok (env.generate_report (perRepoLists env repos1 (t + 1)).flatten
        t ("user:" ++ u)) ∧
    (scan_organization env o t).1 =
      Except.ok (env.generate_report (perRepoLists env repos2 (t + 1)).flatten
        t ("org:" ++ o)) ∧
    (scan_ai_projects env m t).1 =
      Except.ok (env.generate_report (perRepoLists env repos3 (t + 1)).flatten
        t "auto:ai-projects") := by
  refine ⟨scanRepos_join env, ?_, ?_, ?_⟩
  · unfold scan_user
    rw [hu]
    simp only [scanRepos_join]
  · unfold scan_organization
    rw [ho]
    simp only [scanRepos_join]
  · unfold scan_ai_projects
    rw [ha]
    simp only [scanRepos_join]

/-- Witness for C5 on the concrete environment. -/
theorem C5_aggregation_concat_witness :
    (scanRepos wEnv [wRepoA, wRepoErr, wRepoB] 1).1 =
      (perRepoLists wEnv [wRepoA, wRepoErr, wRepoB] 1).flatten ∧
    (scan_user wEnv "alice" 0).1 =
      Except.ok (wEnv.generate_report
        (perRepoLists wEnv [wRepoA, wRepoErr, wRepoB] 1).flatten
        0 ("user:" ++ "alice")) := by
  have h := C5_aggregation_concat wEnv 0 "alice" "acme" 3
    [wRepoA, wRepoErr, wRepoB] [wRepoA] [wRepoB] rfl rfl rfl
  exact ⟨h.1 [wRepoA, wRepoErr, wRepoB] 1, h.2.1⟩

/-- Claim C7: `scan_single_repo R` synthesizes the repository reference
locally — full name `R`, URL `https://github.com/R`, clone URL
`https://github.com/R.git` — without invoking any repository-listing
operation, and generates the report with scan-type label `single:R`. -/
theorem C7_single_repo_synthesis (env : Env) (R : String) (t : Nat) :
    mkSingleRepo R =
      Repo.mk R ("https://github.com/" ++ R) ("https://github.com/" ++ R ++ ".git") ∧
    (scan_single_repo env R t).1 =
      env.generate_report (scan_repository env (mkSingleRepo R) (t + 1)).1
        t ("single:" ++ R) ∧
    (∀ c ∈ (scan_single_repo env R t).2.2, isListingCall c = false) := by
  refine ⟨rfl, rfl, ?_⟩
  intro c hc
  simp only [scan_single_repo] at hc
  rcases List.mem_append.mp hc with h1 | h2
  · rcases scan_repository_trace env (mkSingleRepo R) (t + 1) c h1 with h | ⟨p, _, h⟩
    · rw [h]; rfl
    · rcases h with h | ⟨h, _⟩ <;> (rw [h]; rfl)
  · have h3 : c = ExtCall.report ("single:" ++ R) := by
      simpa using h2
    rw [h3]; rfl

/-- Witness for C7 on the concrete environment. -/
theorem C7_single_repo_synthesis_witness :
    (scan_single_repo wEnv "alice/app" 0).1 =
      wEnv.generate_report (scan_repository wEnv (mkSingleRepo "alice/app") 1).1
        0 ("single:" ++ "alice/app") ∧
    isListingCall (ExtCall.report ("single:" ++ "alice/app")) = false := by
  have h := C7_single_repo_synthesis wEnv "alice/app" 0
  exact ⟨h.2.1, h.2.2 _ (by decide)⟩

/-- Claim C8: a file rejected by `should_scan_file` is skipped entirely —
processing it is identical to not having it in the listing (so it
contributes zero findings and zero collaborator calls), and more generally
the loop never fetches content of, nor runs detection on, any path the
filter rejects. -/
theorem C8_filtered_file_frame (env : Env) (repo : Repo) (st : String)
    (f : FileInfo) (rest : List FileInfo) (acc : List Finding)
    (hs : env.should_scan_file f.path = false) :
    scanFilesLoop env repo st (f :: rest) acc = scanFilesLoop env repo st rest acc ∧
    (∀ (files : List FileInfo) (acc2 : List Finding) (n p : String),
      env.should_scan_file p = false →
      ExtCall.file_content n p ∉ (scanFilesLoop env repo st files acc2).2 ∧
      ExtCall.detect p ∉ (scanFilesLoop env repo st files acc2).2) := by
  constructor
  · rw [scanFilesLoop, hs]
    simp
  · intro files acc2 n p hp
    constructor
    · intro hmem
      rcases scanFilesLoop_trace env repo st files acc2 _ hmem with ⟨q, hsq, hcase⟩
      rcases hcase with h | ⟨h, _⟩
      · injection h with h1 h2
        rw [← h2, hp] at hsq
        exact absurd hsq (by decide)
      · exact ExtCall.noConfusion h
    · intro hmem
      rcases scanFilesLoop_trace env repo st files acc2 _ hmem with ⟨q, hsq, hcase⟩
      rcases hcase with h | ⟨h, _⟩
      · exact ExtCall.noConfusion h
      · injection h with h1
        rw [← h1, hp] at hsq
        exact absurd hsq (by decide)

/-- Witness for C8 on the concrete environment: `img.png` is rejected by the
filter; it is skipped and never fetched nor detected on. -/
theorem C8_filtered_file_frame_witness :
    scanFilesLoop wEnv wRepoA "T5" [⟨"img.png"⟩] [] =
      scanFilesLoop wEnv wRepoA "T5" [] [] ∧
    ExtCall.file_content "alice/app" "img.png" ∉
      (scanFilesLoop wEnv wRepoA "T5"
        [⟨"config.py"⟩, ⟨"README.md"⟩, ⟨"empty.txt"⟩, ⟨"img.png"⟩] []).2 ∧
    ExtCall.detect "img.png" ∉
      (scanFilesLoop wEnv wRepoA "T5"
        [⟨"config.py"⟩, ⟨"README.md"⟩, ⟨"empty.txt"⟩, ⟨"img.png"⟩] []).2 := by
  have h := C8_filtered_file_frame wEnv wRepoA "T5" ⟨"img.png"⟩ [] [] (by decide)
  have h2 := h.2 [⟨"config.py"⟩, ⟨"README.md"⟩, ⟨"empty.txt"⟩, ⟨"img.png"⟩] []
    "alice/app" "img.png" (by decide)
  exact ⟨h.1, h2.1, h2.2⟩

/-- Claim C9: a file whose content fetch returns `None` or the empty string
is skipped after the fetch: the detector is not invoked on it and it
contributes zero findings (the loop's outcome is that of the remaining
files, and the trace gains only the fetch).  Moreover the detector only ever
runs on paths whose fetched content is non-empty. -/
theorem C9_empty_content_skips_detect (env : Env) (repo : Repo) (st : String)
    (f : FileInfo) (rest : List FileInfo) (acc : List Finding)
    (hs : env.should_scan_file f.path = true)
    (hc : env.get_file_content repo.full_name f.path = Except.ok none ∨
      env.get_file_content repo.full_name f.path = Except.ok (some "")) :
    (scanFilesLoop env repo st (f :: rest) acc).1 =
      (scanFilesLoop env repo st rest acc).1 ∧
    (scanFilesLoop env repo st (f :: rest) acc).2 =
      ExtCall.file_content repo.full_name f.path ::
        (scanFilesLoop env repo st rest acc).2 ∧
    (∀ p, ExtCall.detect p ∈ (scanFilesLoop env repo st (f :: rest) acc).2 →
      ∃ s, env.get_file_content repo.full_name p = Except.ok (some s) ∧ s ≠ "") := by
  have hstep : scanFilesLoop env repo st (f :: rest) acc =
      ((scanFilesLoop env repo st rest acc).1,
        ExtCall.file_content repo.full_name f.path ::
          (scanFilesLoop env repo st rest acc).2) := by
    rcases hc with hc | hc
    · rw [scanFilesLoop, hs, hc]
      simp
    · rw [scanFilesLoop, hs, hc]
      simp
  refine ⟨by rw [hstep], by rw [hstep], ?_⟩
  intro p hmem
  rcases scanFilesLoop_trace env repo st (f :: rest) acc _ hmem with ⟨q, _, hcase⟩
  rcases hcase with h | ⟨h, hex⟩
  · exact ExtCall.noConfusion h
  · injection h with h1
    rw [h1]
    exact hex

/-- Witness for C9 on the concrete environment: `README.md` fetches as
absent, is skipped without detection, while detection does run on
`config.py`, whose content is non-empty. -/
theorem C9_empty_content_skips_detect_witness :
    (scanFilesLoop wEnv wRepoA "T5" [⟨"README.md"⟩, ⟨"config.py"⟩] []).1 =
      (scanFilesLoop wEnv wRepoA "T5" [⟨"config.py"⟩] []).1 ∧
    (∃ s, wEnv.get_file_content "alice/app" "config.py" = Except.ok (some s) ∧
      s ≠ "") := by
  have h := C9_empty_content_skips_detect wEnv wRepoA "T5" ⟨"README.md"⟩
    [⟨"config.py"⟩] [] (by decide) (Or.inl rfl)
  exact ⟨h.1, h.2.2 "config.py" (by decide)⟩

/-- Claim C10: every finding returned by one call to `_scan_repository`
(whether or not an exception interrupted the loop) carries the repository's
URL and full name and the single `scan_time` string rendered from the clock
tick at the start of that repository's scan, before any file is processed. -/
theorem C10_metadata_enrichment (env : Env) (repo : Repo) (t : Nat) :
    ∀ f ∈ (scan_repository env repo t).1,
      f.repo_url = repo.url ∧ f.repo_name = repo.full_name ∧
        f.scan_time = env.fmtTime t := by
  intro f hf
  unfold scan_repository at hf
  rcases h : env.get_repo_files repo.full_name with e | files
  · rw [h] at hf
    simp at hf
  · rw [h] at hf
    rcases hr : (scanFilesLoop env repo (env.fmtTime t) files []).1 with raw | sofar
    · simp only [hr] at hf
      have hraw : f ∈ raw := mem_deduplicate (mem_filter_high_confidence.mp hf).1
      have hm := scanFilesLoop_mem_enrich env repo (env.fmtTime t) files [] f
        (by rw [hr]; simpa [LoopResult.findings] using hraw)
      rcases hm with h0 | hP
      · simp at h0
      · exact hP
    · simp only [hr] at hf
      have hm := scanFilesLoop_mem_enrich env repo (env.fmtTime t) files [] f
        (by rw [hr]; simpa [LoopResult.findings] using hf)
      rcases hm with h0 | hP
      · simp at h0
      · exact hP

/-- Witness for C10 on the concrete environment. -/
theorem C10_metadata_enrichment_witness :
    (enrich wRepoA "T5" wF1).repo_url = wRepoA.url ∧
    (enrich wRepoA "T5" wF1).repo_name = wRepoA.full_name ∧
    (enrich wRepoA "T5" wF1).scan_time = wEnv.fmtTime 5 :=
  C10_metadata_enrichment wEnv wRepoA 5 (enrich wRepoA "T5" wF1) (by decide)
